import Mathlib

/-!
Verification development for the NeuronBridge precompute dashboard
(`api/precompute_dashboard.py`).  The search/resolution core of the program
is shallowly embedded: MongoDB / DynamoDB / S3 backends are modelled as an
abstract `World` of query functions, Python exceptions as an `Err` type
threaded through `Except`, and the HTML output as a list of structured
`Block`s (one per emitted table / not-found message / warning), so that the
claims about sections, captured values and error propagation can be stated
and settled.
-/

set_option maxRecDepth 10000

namespace Dashboard

/-- Python exceptions that the search code can raise or propagate. -/
inductive Err where
  | store (msg : String)
  | keyError (k : String)
  | typeError (msg : String)
  | valueError (msg : String)
  | indexError
deriving DecidableEq, Repr

/-- A MongoDB / DynamoDB document value (the subset of Python values the
dashboard manipulates: strings, lists, nested documents, and `None`). -/
inductive Value where
  | s : String → Value
  | arr : List Value → Value
  | obj : List (String × Value) → Value
  | null : Value

mutual

def Value.decEq : (a b : Value) → Decidable (a = b)
  | .s x, .s y =>
      if h : x = y then isTrue (by rw [h])
      else isFalse (fun hh => h (by injection hh))
  | .s _, .arr _ => isFalse nofun
  | .s _, .obj _ => isFalse nofun
  | .s _, .null => isFalse nofun
  | .arr _, .s _ => isFalse nofun
  | .arr x, .arr y =>
      match Value.decEqL x y with
      | isTrue h => isTrue (by rw [h])
      | isFalse h => isFalse (fun hh => h (by injection hh))
  | .arr _, .obj _ => isFalse nofun
  | .arr _, .null => isFalse nofun
  | .obj _, .s _ => isFalse nofun
  | .obj _, .arr _ => isFalse nofun
  | .obj x, .obj y =>
      match Value.decEqO x y with
      | isTrue h => isTrue (by rw [h])
      | isFalse h => isFalse (fun hh => h (by injection hh))
  | .obj _, .null => isFalse nofun
  | .null, .s _ => isFalse nofun
  | .null, .arr _ => isFalse nofun
  | .null, .obj _ => isFalse nofun
  | .null, .null => isTrue rfl

def Value.decEqL : (a b : List Value) → Decidable (a = b)
  | [], [] => isTrue rfl
  | [], _ :: _ => isFalse nofun
  | _ :: _, [] => isFalse nofun
  | x :: xs, y :: ys =>
      match Value.decEq x y with
      | isFalse h1 => isFalse (fun hh => h1 (by injection hh))
      | isTrue h1 =>
        match Value.decEqL xs ys with
        | isTrue h2 => isTrue (by rw [h1, h2])
        | isFalse h2 => isFalse (fun hh => h2 (by injection hh))

def Value.decEqO : (a b : List (String × Value)) → Decidable (a = b)
  | [], [] => isTrue rfl
  | [], _ :: _ => isFalse nofun
  | _ :: _, [] => isFalse nofun
  | (k1, v1) :: xs, (k2, v2) :: ys =>
      if h0 : k1 = k2 then
        match Value.decEq v1 v2 with
        | isFalse h1 => isFalse (fun hh => by
            injection hh with ha hb
            exact h1 (congrArg Prod.snd ha))
        | isTrue h1 =>
          match Value.decEqO xs ys with
          | isTrue h2 => isTrue (by rw [h0, h1, h2])
          | isFalse h2 => isFalse (fun hh => h2 (by injection hh))
      else isFalse (fun hh => by
        injection hh with ha hb
        exact h0 (congrArg Prod.fst ha))

end

instance : DecidableEq Value := Value.decEq

/-- A record returned by a store: an ordered field mapping. -/
abbrev Row := List (String × Value)

/-- Python truthiness of a document value. -/
def Value.truthy : Value → Bool
  | .s v => !v.data.isEmpty
  | .arr l => !l.isEmpty
  | .obj l => !l.isEmpty
  | .null => false

/-- `str()` of a value, used where Python f-strings coerce. -/
def strValue : Value → String
  | .s v => v
  | .null => "None"
  | .arr l => "[" ++ String.intercalate ", " (l.map strValueAux) ++ "]"
  | .obj l => "\x7b" ++ String.intercalate ", " (l.map fun p => p.1 ++ ": " ++ strValueAux p.2) ++ "\x7d"
where strValueAux : Value → String
  | .s v => v
  | .null => "None"
  | .arr _ => "[...]"
  | .obj _ => "\x7b...\x7d"

/-- `row[k]` as a read that may miss (`k in row` is `isSome`). -/
def rowGet (r : Row) (k : String) : Option Value :=
  (r.find? (fun p => p.1 = k)).map (·.2)

/-- `k in row`. -/
def rowHas (r : Row) (k : String) : Bool :=
  r.any (fun p => p.1 = k)

/-- `row[k] = v`: replace in place if the key exists, append otherwise
(Python dicts keep the original key position on reassignment). -/
def rowSet (r : Row) (k : String) (v : Value) : Row :=
  if r.any (fun p => p.1 = k) then r.map (fun p => if p.1 = k then (k, v) else p)
  else r ++ [(k, v)]

/-- `row[k]` in a context where a missing key raises `KeyError`. -/
def getValue (r : Row) (k : String) : Except Err Value :=
  match rowGet r k with
  | some v => .ok v
  | none => .error (.keyError k)

/-- Coerce a value to a string in a context where Python would raise
`TypeError`/`AttributeError` on a non-string (e.g. `str.join`, `.replace`). -/
def asStr : Value → Except Err String
  | .s v => .ok v
  | _ => .error (.typeError "expected str")

/-- Fetch a cell for `'</td><td>'.join(...)`: missing key raises `KeyError`,
a non-string value makes the join raise `TypeError`. -/
def getRenderCell (r : Row) (k : String) : Except Err String := do
  let v ← getValue r k
  asStr v

/-- Render the cells of one table row in header order. -/
def renderCells (r : Row) : List String → Except Err (List String)
  | [] => .ok []
  | f :: rest => do
    let c ← getRenderCell r f
    let more ← renderCells r rest
    .ok (c :: more)

/-- `.items()` of a value that must be a dict. -/
def asObj : Value → Except Err (List (String × Value))
  | .obj l => .ok l
  | _ => .error (.typeError "expected dict")

/-- Iterate a value that must be a list. -/
def asArr : Value → Except Err (List Value)
  | .arr l => .ok l
  | _ => .error (.typeError "expected list")

/-- `item[k]` on an arbitrary value (Python raises `TypeError` on non-dicts,
`KeyError` on a missing key). -/
def vIndexS (v : Value) (k : String) : Except Err Value :=
  match v with
  | .obj l =>
      match (l.find? (fun p => p.1 = k)).map (·.2) with
      | some x => .ok x
      | none => .error (.keyError k)
  | _ => .error (.typeError "value is not subscriptable by str")

/-- Python `sep.join(x)`: joins a list of strings; a string is joined
character-wise; anything else raises `TypeError`. -/
def pyJoin (sep : String) : Value → Except Err String
  | .arr l => do
      let strs ← l.mapM (fun x => match x with
        | .s t => Except.ok t
        | _ => Except.error (Err.typeError "sequence item: expected str"))
      Except.ok (String.intercalate sep strs)
  | .s t => Except.ok (String.intercalate sep (t.data.map Char.toString))
  | _ => Except.error (Err.typeError "can only join an iterable")

/-- Default missing header fields to the empty string
(`if header not in row: row[header] = ''`). -/
def fillFields (r : Row) (fields : List String) : Row :=
  fields.foldl (fun r f => if rowHas r f then r else rowSet r f (.s "")) r

/-- `show_pli`'s variant that also replaces `None` values
(`if field not in row or row[field] is None`). -/
def fillFieldsNull (r : Row) (fields : List String) : Row :=
  fields.foldl (fun r f =>
    match rowGet r f with
    | none => rowSet r f (.s "")
    | some .null => rowSet r f (.s "")
    | some _ => r) r

/-- Python `str.isdigit`: non-empty and every character a digit. -/
def pyIsdigit (s : String) : Bool :=
  !s.data.isEmpty && s.data.all (·.isDigit)

/-- `s.split(c, 1)`: split at the first occurrence, `none` when the
separator is absent (where Python unpacking would raise `ValueError`). -/
def splitFirst (s : String) (c : Char) : Option (String × String) :=
  match s.data.findIdx? (· = c) with
  | none => none
  | some i => some (String.mk (s.data.take i), String.mk (s.data.drop (i + 1)))

def isPrefixL : List Char → List Char → Bool
  | [], _ => true
  | _ :: _, [] => false
  | p :: ps, c :: cs => p == c && isPrefixL ps cs

/-- `s.startswith(pre)`. -/
def pyStartsWith (s pre : String) : Bool :=
  isPrefixL pre.data s.data

/-- Drop the first `n` characters. -/
def pyDrop (s : String) (n : Nat) : String :=
  String.mk (s.data.drop n)

def replaceFuel (old new : List Char) : Nat → List Char → List Char
  | 0, cs => cs
  | _ + 1, [] => []
  | fuel + 1, c :: cs =>
    if old ≠ [] ∧ isPrefixL old (c :: cs) = true then
      new ++ replaceFuel old new fuel ((c :: cs).drop old.length)
    else c :: replaceFuel old new fuel cs

/-- `s.replace(old, new)`: replace every (non-overlapping) occurrence. -/
def pyReplace (s old new : String) : String :=
  String.mk (replaceFuel old.data new.data s.data.length s.data)

def containsL (needle : List Char) : List Char → Bool
  | [] => isPrefixL needle []
  | c :: cs => isPrefixL needle (c :: cs) || containsL needle cs

def splitCharL (c : Char) : List Char → List (List Char)
  | [] => [[]]
  | x :: xs =>
    if x = c then [] :: splitCharL c xs
    else
      match splitCharL c xs with
      | h :: t => (x :: h) :: t
      | [] => [[x]]

/-- `s.split(c)[-1]`. -/
def pyLastSplit (s : String) (c : Char) : String :=
  String.mk ((splitCharL c s.data).getLastD [])

/-- `s.upper()`. -/
def pyUpper (s : String) : String :=
  String.mk (s.data.map Char.toUpper)

/-- `s.lower()`. -/
def pyLower (s : String) : String :=
  String.mk (s.data.map Char.toLower)

/-- Substring test, as in Python `needle in s`. -/
def strContains (s needle : String) : Bool :=
  if needle = "" then true else containsL needle.data s.data

/-- Python `k in v` on a document value: dicts test keys, lists membership,
strings substrings; anything else raises `TypeError`. -/
def vContains (v : Value) (k : String) : Except Err Bool :=
  match v with
  | .obj l => .ok (l.any (fun p => p.1 = k))
  | .arr l => .ok (l.any (fun x => x == .s k))
  | .s t => .ok (strContains t k)
  | .null => .error (.typeError "argument of type NoneType is not iterable")

/-- A MongoDB query predicate, as built by the `show_*` functions. -/
inductive Pred where
  | empty
  | eqS (field val : String)
  | eqInt (field : String) (val : Option Nat)
  | regexCI (field val : String)
  | regexSuffix (field val : String)
deriving DecidableEq, Repr

/-- Outcome of an S3 `head_object` existence probe. -/
inductive Probe where
  | found
  | missing
  | other (msg : String)
deriving DecidableEq, Repr

/-- The data stores the dashboard talks to, abstracted as query functions.
`Except.error` models the underlying client raising an exception. -/
structure World where
  /-- `DB[db][coll].count_documents/find(payload)` -/
  mongoFind : String → String → Pred → Except Err (List Row)
  /-- `DB['neuronbridge']['ddb_published_versioned'].distinct("dynamodb_version")` -/
  ddbVersions : Except Err (List String)
  /-- `get_dynamodb(tbl, 'itemType', 'searchString', 'searchKey', v)`:
  the `Items` of the versioned published table, `none` when empty -/
  publishedQuery : String → String → Except Err (Option (List Row))
  /-- first `Item` of the published-skeletons query, `none` when empty -/
  skeletonsQuery : Value → Except Err (Option Row)
  /-- first `Item` of the custom-annotations query, `none` when empty -/
  customQuery : String → Except Err (Option Row)
  /-- first `Item` of the published-stacks query, `none` when empty -/
  stacksQuery : String → Except Err (Option Row)
  /-- `get_item` on the publishing-DOI table, `none` when absent -/
  doiQuery : Value → Except Err (Option Row)
  /-- `AWS['client'].head_object(Bucket=b, Key=k)` -/
  s3head : String → String → Probe

/-- One structural chunk of the page the search emits. -/
inductive Block where
  /-- the goldenrod "{itype} {ival} was not found in {table}" message -/
  | notFound (itype ival table : String)
  /-- an emitted table: section name, headers, rendered cell rows -/
  | table (name : String) (headers : List String) (rows : List (List String))
  /-- a red warning span -/
  | warning (msg : String)
  /-- the versioned published-data section of `get_published_versioned` -/
  | versioned (tbl : String) (lines : List String)
deriving DecidableEq, Repr

/-- `generate_version_pulldown`, over the distinct versions of the catalog
collection and the (possibly empty) default version. -/
def generate_version_pulldown (versions : List String) (version : String) : String × String :=
  match versions with
  | [] => ("", "")
  | [v] => ("", v)
  | _ =>
    let version := if version = "" then versions.foldl (fun _ ver => ver) version else version
    let base := "<br>Select a DynamoDB published data version: " ++
      "<select id='version' onchange='select_version();'>"
    let pulldown := versions.foldl (fun acc ver =>
      acc ++ (if ver = version then s!"<option selected>{ver}</option>"
              else s!"<option>{ver}</option>")) base
    (pulldown ++ "</select><br><br>", version)

/-- `url_link`: strip the S3 prefix and bucket for the link text. -/
def url_link (url : String) : String :=
  let pre := "https://s3.amazonaws.com/"
  let abbrevTxt :=
    if pyStartsWith url pre then
      match splitFirst (pyDrop url pre.length) '/' with
      | some (seg, after) => if seg = "" then url else after
      | none => url
    else url
  "<a href='" ++ url ++ "' target='_blank'>" ++ abbrevTxt ++ "</a>"

/-- The per-request S3 existence-check state threaded through `check_s3`:
the already-checked cache, the output list, the error flags, and the trace
of probes actually issued. -/
structure S3State where
  s3files : List (String × List String)
  outs3 : List (String × String)
  notfound : Bool
  other : Bool
  probes : List (String × String)
deriving DecidableEq, Repr

def initS3 : S3State := ⟨[], [], false, false, []⟩

def s3Lookup (m : List (String × List String)) (ft : String) : List String :=
  ((m.find? (fun p => p.1 = ft)).map (·.2)).getD []

def s3Insert (m : List (String × List String)) (ft key : String) : List (String × List String) :=
  if m.any (fun p => p.1 = ft) then
    m.map (fun p => if p.1 = ft then (ft, p.2 ++ [key]) else p)
  else m ++ [(ft, [key])]

/-- `check_s3`: walk the file-type → URL mapping, skipping pairs whose
(fileType, key) was already checked, probing S3 for the rest. -/
def check_s3 (w : World) : List (String × Value) → S3State → Except Err S3State
  | [], st => .ok st
  | (ftype, fullv) :: rest, st => do
    let full ← asStr fullv
    let floc := pyReplace full "https://s3.amazonaws.com/" ""
    match splitFirst floc '/' with
    | none => .error (.valueError "not enough values to unpack")
    | some (bucket, key) =>
      if key ∈ s3Lookup st.s3files ftype then
        check_s3 w rest st
      else
        let st := { st with s3files := s3Insert st.s3files ftype key }
        let probeKey := pyReplace key "+" " "
        let st := { st with probes := st.probes ++ [(bucket, probeKey)] }
        let st :=
          match w.s3head bucket probeKey with
          | .found => { st with outs3 := st.outs3 ++ [(ftype, url_link full)] }
          | .missing =>
              { st with notfound := true,
                        outs3 := st.outs3 ++
                          [(ftype, "<span style='color: red'>" ++ key ++ "</span>")] }
          | .other msg =>
              { st with other := true,
                        outs3 := st.outs3 ++
                          [(ftype, "<span style='color: red'>" ++ key ++ " " ++ msg ++ "</span>")] }
        check_s3 w rest st

/-- `show_jacs`'s query payload (nested conditionals on `itype`/`table`). -/
def show_jacs_payload (ival itype table : String) : Pred :=
  if itype = "Publishing name" then .regexCI "publishingName" ival
  else if itype = "Sample" then
    (if table = "sample" then .eqInt "_id" ival.toNat?
     else .eqS "sampleRef" ("Sample#" ++ ival))
  else if itype = "Slide code" then .eqS "slideCode" ival
  else .empty

def jacsHeadersSample : List String :=
  ["_id", "slideCode", "line", "publishingName", "gender", "dataSet", "releaseLabel", "status"]

def jacsHeadersImage : List String :=
  ["sampleRef", "slideCode", "line", "anatomicalArea", "tile", "objective", "gender",
   "dataSet", "name"]

/-- The row loop of `show_jacs`: backfill every header, stringify `_id` and
track the publishing name for `sample`, strip `Sample#` for other tables,
then render the cells. -/
def show_jacs_rows (table : String) (headers : List String) :
    List Row → String → Except Err (List (List String) × String)
  | [], pname => .ok ([], pname)
  | row :: rest, pname => do
    let row := fillFields row headers
    let (row, pname) ←
      if table = "sample" then do
        let idv ← getValue row "_id"
        let row := rowSet row "_id" (.s (strValue idv))
        let pname := match rowGet row "publishingName" with
          | some v => strValue v
          | none => pname
        Except.ok (row, pname)
      else do
        let srv ← getValue row "sampleRef"
        let srs ← asStr srv
        let row := rowSet row "sampleRef" (.s (pyReplace srs "Sample#" ""))
        Except.ok (row, pname)
    let cells ← renderCells row headers
    let (more, pname) ← show_jacs_rows table headers rest pname
    .ok (cells :: more, pname)

/-- `show_jacs`: query a `jacs` collection and emit its table (or a
not-found message), returning the last-seen publishing name. -/
def show_jacs (w : World) (ival itype table : String) : Except Err (List Block × String) := do
  let rows ← w.mongoFind "jacs" table (show_jacs_payload ival itype table)
  if rows.length = 0 then
    .ok ([.notFound itype ival table], "")
  else do
    let headers := if table = "sample" then jacsHeadersSample else jacsHeadersImage
    let (cellRows, pname) ← show_jacs_rows table headers rows ""
    .ok ([.table table headers cellRows], pname)

/-- `show_emb`'s query payload: neuron type/instance both match on
`neuronType`, everything else on `name`. -/
def show_emb_payload (ival itype : String) : Pred :=
  if itype = "Neuron type" ∨ itype = "Neuron instance" then .eqS "neuronType" ival
  else .eqS "name" ival

def embHeaders : List String :=
  ["_id", "name", "neuronType", "neuronInstance", "status", "statusLabel", "dataSetIdentifier"]

def embOptFields : List String :=
  ["neuronType", "neuronInstance", "status", "statusLabel", "dataSetIdentifier"]

/-- The row loop of `show_emb`: stringify `_id`, backfill the five optional
fields, render the cells. -/
def show_emb_rows : List Row → Except Err (List (List String))
  | [] => .ok []
  | row :: rest => do
    let idv ← getValue row "_id"
    let row := rowSet row "_id" (.s (strValue idv))
    let row := fillFields row embOptFields
    let cells ← renderCells row embHeaders
    let more ← show_emb_rows rest
    .ok (cells :: more)

/-- `show_emb`: query `jacs.emBody` and emit its table (or a not-found
message, which always says "Body ID"). -/
def show_emb (w : World) (ival itype : String) : Except Err (List Block) := do
  let rows ← w.mongoFind "jacs" "emBody" (show_emb_payload ival itype)
  if rows.length = 0 then
    .ok [.notFound "Body ID" ival "emBody"]
  else do
    let cellRows ← show_emb_rows rows
    .ok [.table "emBody" embHeaders cellRows]

/-- `show_nmd_purl`'s query payload. -/
def show_nmd_purl_payload (ival itype table : String) : Pred :=
  if itype = "Publishing name" then .regexCI "publishedName" ival
  else if itype = "Sample" then
    (if table = "neuronMetadata" then .eqS "sourceRefId" ("Sample#" ++ ival)
     else .eqS "sampleRef" ("Sample#" ++ ival))
  else if itype = "Slide code" then .eqS "slideCode" ival
  else if itype = "Neuron type" then .eqS "neuronType" ival
  else if itype = "Neuron instance" then .eqS "neuronInstance" ival
  else if itype = "Body ID" then
    (if table = "publishedURL" then .regexSuffix "publishedName" ival
     else .eqS "publishedName" ival)
  else .empty

/-- The header list of `show_nmd_purl` (including the `publishedURL`
rewrites: `sampleRef` first, `alpsRelease` last, truncation for Body ID). -/
def nmdHeaders (itype table : String) : List String :=
  let headers :=
    if itype = "Body ID" ∨ itype = "Neuron type" ∨ itype = "Neuron instance" then
      ["sourceRefId", "mipId", "alignmentSpace", "publishedName", "neuronType",
       "neuronInstance", "datasetLabels"]
    else
      ["sourceRefId", "mipId", "alignmentSpace", "slideCode", "publishedName",
       "anatomicalArea", "objective", "gender", "datasetLabels"]
  if table = "publishedURL" then
    let headers := headers.set 0 "sampleRef"
    if itype = "Sample" ∨ itype = "Slide code" then
      headers.set (headers.length - 1) "alpsRelease"
    else if itype = "Body ID" then headers.take (headers.length - 3)
    else headers
  else headers

/-- The row loop of `show_nmd_purl`: backfill three fields, join or default
`datasetLabels`, capture the first-present `alpsRelease` and the distinct
`publishedName`s, render the cells. -/
def show_nmd_purl_rows (headers : List String) :
    List Row → Option Value → List Value →
    Except Err (List (List String) × Option Value × List Value)
  | [], release, pname => .ok ([], release, pname)
  | row :: rest, release, pname => do
    let row := fillFields row ["sourceRefId", "neuronType", "neuronInstance"]
    let row ←
      match rowGet row "datasetLabels" with
      | some v => do
          let j ← pyJoin ", " v
          Except.ok (rowSet row "datasetLabels" (.s j))
      | none => Except.ok (rowSet row "datasetLabels" (.s ""))
    let release :=
      if rowHas row "alpsRelease" ∧ release = none then
        (match rowGet row "alpsRelease" with
         | some .null => none
         | x => x)
      else release
    let pnv ← getValue row "publishedName"
    let pname := if pnv ∈ pname then pname else pname ++ [pnv]
    let cells ← renderCells row headers
    let (more, release, pname) ← show_nmd_purl_rows headers rest release pname
    .ok (cells :: more, release, pname)

/-- `show_nmd_purl`: query `neuronbridge.neuronMetadata` or `publishedURL`,
emit the table (plus, for `publishedURL` rows whose last row carries
`uploaded` files, the S3 existence-check section), and return the captured
release and publishing names. -/
def show_nmd_purl (w : World) (ival itype table : String) :
    Except Err (List Block × Option Value × Option (List Value)) := do
  let rows ← w.mongoFind "neuronbridge" table (show_nmd_purl_payload ival itype table)
  if rows.length = 0 then
    .ok ([.notFound itype ival table], none, none)
  else do
    let headers := nmdHeaders itype table
    let (cellRows, release, pname) ← show_nmd_purl_rows headers rows none []
    let tableBlock := Block.table table headers cellRows
    let lastRow := rows.getLastD []
    let uploadedOK :=
      match rowGet lastRow "uploaded" with
      | some v => v.truthy
      | none => false
    if table ≠ "publishedURL" ∨ uploadedOK = false then
      .ok ([tableBlock], release, some pname)
    else do
      let upv ← getValue lastRow "uploaded"
      let up ← asObj upv
      let st ← check_s3 w up initS3
      let s3block := Block.table "s3files" ["File type", "Key"]
        (st.outs3.map (fun p => [p.1, p.2]))
      let warns :=
        (if st.notfound then [Block.warning "Some files were not found on S3"] else []) ++
        (if st.other then [Block.warning "Some files caused errors"] else [])
      .ok ([tableBlock, s3block] ++ warns, release, some pname)

/-- `get_stacks`: first published-stacks item's `releaseName`, or `None`. -/
def get_stacks (w : World) (key : String) : Except Err (Option Value) := do
  let r? ← w.stacksQuery key
  match r? with
  | none => .ok none
  | some row => do
      let v ← getValue row "releaseName"
      .ok (some v)

/-- `show_pli`'s query payload. -/
def show_pli_payload (ival itype : String) : Pred :=
  if itype = "Publishing name" then .eqS "name" ival
  else if itype = "Sample" then .eqS "sampleRef" ("Sample#" ++ ival)
  else if itype = "Slide code" then .eqS "slideCode" ival
  else .empty

def pliHeaders : List String :=
  ["sampleRef", "slideCode", "name", "area", "tile", "objective", "releaseName", "alignment"]

def noSpan : String := "<span style='color: yellow'>No</span>"
def yesSpan : String := "<span style='color: lime'>Yes</span>"

/-- The row loop of `show_pli`: alignment flag, release cross-check,
backfill (also of `None` values), cell render, S3 checks of `files`, and
the deduplicated published-stacks lookups. -/
def show_pli_rows (w : World) (itype : String) (release : Option Value) :
    List Row → S3State → List (String × Value) →
    Except Err (List (List String) × S3State × List (String × Value))
  | [], st, ddb => .ok ([], st, ddb)
  | row :: rest, st, ddb => do
    let hasVLS ←
      match rowGet row "files" with
      | some fv => vContains fv "VisuallyLosslessStack"
      | none => Except.ok false
    let row := rowSet row "alignment" (.s (if hasVLS then yesSpan else noSpan))
    let row ←
      match release with
      | some rv0 =>
          if itype ≠ "Publishing name" ∧ rv0.truthy = true then do
            let rv ← getValue row "releaseName"
            if rv ≠ rv0 then
              Except.ok (rowSet row "releaseName"
                (.s ("<span style='color: red'>" ++ strValue rv ++ "</span>")))
            else Except.ok row
          else Except.ok row
      | none => Except.ok row
    let row := fillFieldsNull row pliHeaders
    let cells ← renderCells row pliHeaders
    let st ←
      match rowGet row "files" with
      | some fv =>
          if fv.truthy then do
            let up ← asObj fv
            check_s3 w up st
          else Except.ok st
      | none => Except.ok st
    let sc ← getRenderCell row "slideCode"
    let ob ← getRenderCell row "objective"
    let als ← getRenderCell row "alignmentSpace"
    let ddbKey := pyLower (sc ++ "-" ++ ob ++ "-" ++ als)
    let ddb ←
      if ddb.any (fun p => p.1 = ddbKey) then Except.ok ddb
      else do
        let ret ← get_stacks w ddbKey
        match ret with
        | some v => if v.truthy then Except.ok (ddb ++ [(ddbKey, v)]) else Except.ok ddb
        | none => Except.ok ddb
    let (more, st, ddb) ← show_pli_rows w itype release rest st ddb
    .ok (cells :: more, st, ddb)

/-- `show_pli`: query `neuronbridge.publishedLMImage` and emit its table,
the S3 existence-check section, warnings, and (when any stacks were found)
the published-stacks section. -/
def show_pli (w : World) (ival itype : String) (release : Option Value) :
    Except Err (List Block) := do
  let rows ← w.mongoFind "neuronbridge" "publishedLMImage" (show_pli_payload ival itype)
  if rows.length = 0 then
    .ok [.notFound itype ival "publishedLMImage"]
  else do
    let (cellRows, st, ddb) ← show_pli_rows w itype release rows initS3 []
    let b1 := Block.table "publishedLMImage" pliHeaders cellRows
    let b2 := Block.table "s3files" ["File type", "Key"]
      (st.outs3.map (fun p => [p.1, p.2]))
    let warns :=
      (if st.notfound then [Block.warning "Some files were not found on S3"] else []) ++
      (if st.other then [Block.warning "Some files caused errors"] else [])
    if ddb.isEmpty then
      .ok ([b1, b2] ++ warns)
    else
      .ok ([b1, b2] ++ warns ++
        [Block.table "janelia-neuronbridge-published-stacks" ["itemType", "Release"]
          (ddb.map (fun p => [p.1, strValue p.2]))])

/-- `get_skeletons`: render the first published-skeletons item, linking
`skeleton*` values; empty result yields no section. -/
def get_skeletons (w : World) (key : Value) : Except Err (List Block) := do
  let r? ← w.skeletonsQuery key
  match r? with
  | none => .ok []
  | some row => do
      let cells ← row.mapM (fun p =>
        if pyStartsWith p.1 "skeleton" then do
          let sv ← asStr p.2
          Except.ok [p.1, url_link sv]
        else Except.ok [p.1, strValue p.2])
      .ok [Block.table "janelia-neuronbridge-published-skeletons" ["Key", "Value"] cells]

/-- `get_custom`: render the matches of the first custom-annotations item
for the lower-cased key; empty result yields no section. -/
def get_custom (w : World) (key : String) : Except Err (List Block) := do
  let r? ← w.customQuery (pyLower key)
  match r? with
  | none => .ok []
  | some data => do
      let mv ← getValue data "matches"
      let items ← asArr mv
      let cells ← items.mapM (fun item => do
        let a ← vIndexS item "annotation"
        let b ← vIndexS item "annotator"
        let c ← vIndexS item "region"
        let d ← vIndexS item "dataset"
        let e ← vIndexS item "line"
        Except.ok [strValue a, strValue b, strValue c, strValue d, strValue e])
      .ok [Block.table "janelia-neuronbridge-custom-annotations"
        ["Annotation", "Annotator", "Region", "Dataset", "Line"] cells]

/-- The per-name loop of `get_dois`: skip absent entries, read
`name` / `doi[0].link` / `doi[0].citation`. -/
def get_dois_out (w : World) : List Value → Except Err (List (Value × Value × Value))
  | [] => .ok []
  | pn :: rest => do
    let r? ← w.doiQuery pn
    match r? with
    | none => get_dois_out w rest
    | some row => do
        let nm ← getValue row "name"
        let dv ← getValue row "doi"
        let arr ← asArr dv
        match arr with
        | [] => .error Err.indexError
        | d0 :: _ => do
            let lk ← vIndexS d0 "link"
            let ct ← vIndexS d0 "citation"
            let more ← get_dois_out w rest
            .ok ((nm, lk, ct) :: more)

/-- `get_dois`: one DOI lookup per publishing name; no section when none
of the names had an entry. -/
def get_dois (w : World) (pname : List Value) : Except Err (List Block) := do
  let out ← get_dois_out w pname
  if out.isEmpty then
    .ok []
  else do
    let cells ← out.mapM (fun t => do
      let lkr ←
        if t.2.1.truthy then do
          let sv ← asStr t.2.1
          Except.ok (url_link sv)
        else Except.ok (strValue t.2.1)
      Except.ok [strValue t.1, strValue t.2.2, lkr])
    .ok [Block.table "janelia-neuronbridge-publishing-doi"
      ["Publishing name", "Citation", "Link"] cells]

/-- The row loop of `get_published_versioned`: first non-empty `name` wins,
each row contributes its `<br>`-joined `bodyIDs`. -/
def gpv_rows : List Row → String → Except Err (List String × String)
  | [], name => .ok ([], name)
  | row :: rest, name => do
    let name ←
      if name = "" then do
        let v ← getValue row "name"
        Except.ok (strValue v)
      else Except.ok name
    let bv ← getValue row "bodyIDs"
    let line ← pyJoin "<br>" bv
    let (more, name) ← gpv_rows rest name
    .ok (line :: more, name)

/-- `get_published_versioned`: resolve the current published version, query
the versioned DynamoDB table by search key, swallowing any query failure
(`except Exception: return "", ""`); a `None` item list makes the row loop
raise `TypeError`, which this function does not catch. -/
def get_published_versioned (w : World) (pname : String) :
    Except Err (List Block × String) := do
  let versions ← w.ddbVersions
  let version := (generate_version_pulldown versions "").2
  let tbl := "janelia-neuronbridge-published-" ++ version
  match w.publishedQuery tbl (pyLastSplit pname ':') with
  | .error _ => .ok ([], "")
  | .ok none => .error (.typeError "NoneType is not iterable")
  | .ok (some rows) => do
      let (lines, name) ← gpv_rows rows ""
      .ok ([Block.versioned tbl lines], name)

/-- The outcome of a `/run_search` request. -/
inductive SearchResult where
  /-- the invalid-key error page -/
  | invalid (stype key : String)
  /-- an exception escaped the handler entirely (HTTP 500) -/
  | crash (e : Err)
  /-- the "Error querying ..." page rendered by the handler's `except` -/
  | errorPage (stype : String) (e : Err)
  /-- the assembled report page -/
  | page (blocks : List Block)
deriving DecidableEq, Repr

def flyLight (stype : String) : Bool :=
  stype = "Publishing name" ∨ stype = "Sample" ∨ stype = "Slide code"

def isNeuronType (stype : String) : Bool :=
  stype = "Neuron type" ∨ stype = "Neuron instance"

/-- The two key-validation checks of `run_search` (`key.isdigit()`). -/
def searchInvalid (key stype : String) : Bool :=
  ((stype = "Body ID" ∨ stype = "Sample") ∧ pyIsdigit key = false) ∨
  ((stype = "Publishing name" ∨ stype = "Slide code" ∨ stype = "Neuron type" ∨
    stype = "Neuron instance") ∧ pyIsdigit key = true)

/-- The body of `run_search`'s `try` block: the fixed per-type pipeline,
any raised exception propagating to the handler's `except`. -/
def run_search_try (w : World) (key stype : String) (pvhtml : List Block) :
    Except Err (List Block) := do
  let (blocks1, key) ←
    if flyLight stype then do
      let (b1, pname1) ← show_jacs w key stype "sample"
      let key := if stype = "Publishing name" ∧ pname1 ≠ "" then pname1 else key
      let (b2, _) ← show_jacs w key stype "image"
      Except.ok (b1 ++ b2, key)
    else do
      let b ← show_emb w key stype
      Except.ok (b, key)
  let (b3, _, _) ← show_nmd_purl w key stype "neuronMetadata"
  if isNeuronType stype then
    -- pname is reset to "" for these types, so the DOI step is skipped
    .ok (blocks1 ++ b3 ++ pvhtml)
  else do
    let (b4, _release, pn) ← show_nmd_purl w key stype "publishedURL"
    let blocks := blocks1 ++ b3 ++ b4
    let blocks ←
      if flyLight stype then do
        let b5 ← show_pli w key stype _release
        Except.ok (blocks ++ b5)
      else if stype = "Body ID" then do
        let p0 ←
          match pn with
          | none => Except.error (Err.typeError "NoneType is not subscriptable")
          | some [] => Except.error Err.indexError
          | some (p :: _) => Except.ok p
        let b6 ← get_skeletons w p0
        let b7 ← get_custom w key
        Except.ok (blocks ++ b6 ++ b7)
      else Except.ok blocks
    match pn with
    | some (p :: ps) => do
        let b8 ← get_dois w (p :: ps)
        .ok (blocks ++ b8)
    | _ => .ok blocks

/-- `run_search`: validation, the neuron-type published-versioned step
(whose failures escape the handler), slide-code uppercasing, then the
`try`-wrapped pipeline. -/
def run_search (w : World) (key stype : String) : SearchResult :=
  if searchInvalid key stype then .invalid stype key
  else
    let step1 : Except Err (List Block × String) :=
      if isNeuronType stype then get_published_versioned w (pyLower key)
      else .ok ([], "")
    match step1 with
    | .error e => .crash e
    | .ok (pvhtml, neuron) =>
      let key := if neuron ≠ "" then neuron else key
      let key := if stype = "Slide code" then pyUpper key else key
      match run_search_try w key stype pvhtml with
      | .error e => .errorPage stype e
      | .ok blocks => .page blocks

/-! ### Observables: report sections -/

/-- The section a block contributes to the report, if any (not-found
messages and warnings are not sections). -/
def Block.sectionName : Block → Option String
  | .table n _ _ => some n
  | .versioned _ _ => some "published-versioned"
  | _ => none

/-- The section set (in order of appearance) of an emitted page. -/
def sections (bs : List Block) : List String :=
  bs.filterMap Block.sectionName

/-- The sections of a successful search page, `none` on any error outcome. -/
def pageSections (r : SearchResult) : Option (List String) :=
  match r with
  | .page bs => some (sections bs)
  | _ => none

/-- The sections each key type's pipeline can ever emit. -/
def declaredSections (stype : String) : List String :=
  if flyLight stype then
    ["sample", "image", "neuronMetadata", "publishedURL", "s3files", "publishedLMImage",
     "janelia-neuronbridge-published-stacks", "janelia-neuronbridge-publishing-doi"]
  else if stype = "Body ID" then
    ["emBody", "neuronMetadata", "publishedURL", "s3files",
     "janelia-neuronbridge-published-skeletons", "janelia-neuronbridge-custom-annotations",
     "janelia-neuronbridge-publishing-doi"]
  else ["emBody", "neuronMetadata", "published-versioned"]

/-! ### Reference (specification-side) reductions -/

/-- Specification of the release capture: the value of the first row in
which `alpsRelease` is present with a non-`None` value. -/
def releaseSpec (rows : List Row) : Option Value :=
  rows.findSome? (fun r =>
    match rowGet r "alpsRelease" with
    | some .null => none
    | x => x)

/-- First-seen-order deduplication. -/
def dedupFS (acc : List Value) : List Value → List Value
  | [] => acc
  | v :: rest => dedupFS (if v ∈ acc then acc else acc ++ [v]) rest

/-! ### Concrete store instantiations used by the witnesses and
counterexamples -/

/-- A world in which every store succeeds with an empty result. -/
def emptyWorld : World where
  mongoFind := fun _ _ _ => .ok []
  ddbVersions := .ok []
  publishedQuery := fun _ _ => .ok none
  skeletonsQuery := fun _ => .ok none
  customQuery := fun _ => .ok none
  stacksQuery := fun _ => .ok none
  doiQuery := fun _ => .ok none
  s3head := fun _ _ => .found

/-- A neuron-body record for body ID 123. -/
def embRow : Row := [("_id", .s "10"), ("name", .s "123")]

/-- Body ID 123 exists in `jacs.emBody` and nowhere else. -/
def bodyOnlyWorld : World :=
  { emptyWorld with
    mongoFind := fun db coll p =>
      if db = "jacs" ∧ coll = "emBody" ∧ p = show_emb_payload "123" "Body ID" then .ok [embRow]
      else .ok [] }

/-- The version catalog succeeds but the versioned published table fails. -/
def swallowWorld : World :=
  { emptyWorld with
    ddbVersions := .ok ["v1"]
    publishedQuery := fun _ _ => .error (.store "connection reset") }

/-- One sample record with slide code ABC, empty everywhere else. -/
def sampleWorld : World :=
  { emptyWorld with
    mongoFind := fun db coll p =>
      if db = "jacs" ∧ coll = "sample" ∧ p = show_jacs_payload "ABC" "Slide code" "sample" then
        .ok [[("_id", .s "1"), ("slideCode", .s "ABC")]]
      else .ok [] }

/-- A neuronMetadata record for slide code SC1 that lacks `mipId`. -/
def missingMipWorld : World :=
  { emptyWorld with
    mongoFind := fun db coll p =>
      if db = "neuronbridge" ∧ coll = "neuronMetadata" ∧
         p = show_nmd_purl_payload "SC1" "Slide code" "neuronMetadata" then
        .ok [[("slideCode", .s "SC1"), ("publishedName", .s "P1"),
              ("alignmentSpace", .s "AS"), ("anatomicalArea", .s "brain"),
              ("objective", .s "40x"), ("gender", .s "f")]]
      else .ok [] }

/-- A complete publishedURL row for slide code SC1. -/
def purlRow (pn alps : String) : Row :=
  [("sampleRef", .s "Sample#1"), ("mipId", .s "m"), ("alignmentSpace", .s "AS"),
   ("slideCode", .s "SC1"), ("publishedName", .s pn), ("anatomicalArea", .s "brain"),
   ("objective", .s "40x"), ("gender", .s "f"), ("alpsRelease", .s alps)]

/-- Two publishedURL rows: the first with an *empty* release value, the
second with release R1. -/
def blankReleaseWorld : World :=
  { emptyWorld with
    mongoFind := fun db coll p =>
      if db = "neuronbridge" ∧ coll = "publishedURL" ∧
         p = show_nmd_purl_payload "SC1" "Slide code" "publishedURL" then
        .ok [purlRow "A" "", purlRow "B" "R1"]
      else .ok [] }

/-- A world whose `jacs.sample` query fails with a store error. -/
def failWorld : World :=
  { emptyWorld with
    mongoFind := fun _ coll _ =>
      if coll = "sample" then .error (.store "timeout") else .ok [] }

/-- The version-catalog distinct query itself fails. -/
def crashWorld : World :=
  { emptyWorld with ddbVersions := .error (.store "catalog down") }

/-- Every query returns one emBody-style record with only `_id` and `name`. -/
def embSparseWorld : World :=
  { emptyWorld with
    mongoFind := fun _ _ _ => .ok [[("_id", .s "7"), ("name", .s "B1")]] }

/-- The six key types the search page offers. -/
def sixTypes : List String :=
  ["Publishing name", "Sample", "Slide code", "Body ID", "Neuron type", "Neuron instance"]

/-! ### Which sections each pipeline component can emit -/

theorem sections_append (a b : List Block) : sections (a ++ b) = sections a ++ sections b :=
  List.filterMap_append a b Block.sectionName

theorem sections_show_jacs (w : World) (i t tbl : String) (bs : List Block) (p : String)
    (h : show_jacs w i t tbl = .ok (bs, p)) : sections bs ⊆ [tbl] := by
  unfold show_jacs at h
  cases hm : w.mongoFind "jacs" tbl (show_jacs_payload i t tbl) with
  | error e => rw [hm] at h; simp [Bind.bind, Except.bind] at h
  | ok rows =>
    rw [hm] at h
    simp only [Bind.bind, Except.bind] at h
    split at h
    · injection h with h1
      injection h1 with h2 h3
      subst h2
      simp [sections, Block.sectionName]
    · cases hr : show_jacs_rows tbl
          (if tbl = "sample" then jacsHeadersSample else jacsHeadersImage) rows "" with
      | error e => rw [hr] at h; simp at h
      | ok pr =>
        rw [hr] at h
        simp at h
        obtain ⟨h2, h3⟩ := h
        subst h2
        simp [sections, Block.sectionName]

theorem sections_show_emb (w : World) (i t : String) (bs : List Block)
    (h : show_emb w i t = .ok bs) : sections bs ⊆ ["emBody"] := by
  unfold show_emb at h
  cases hm : w.mongoFind "jacs" "emBody" (show_emb_payload i t) with
  | error e => rw [hm] at h; simp [Bind.bind, Except.bind] at h
  | ok rows =>
    rw [hm] at h
    simp only [Bind.bind, Except.bind] at h
    split at h
    · injection h with h1
      subst h1
      simp [sections, Block.sectionName]
    · cases hr : show_emb_rows rows with
      | error e => rw [hr] at h; simp at h
      | ok cells =>
        rw [hr] at h
        simp at h
        subst h
        simp [sections, Block.sectionName]

theorem sections_show_nmd_purl (w : World) (i t tbl : String)
    (bs : List Block) (rel : Option Value) (pn : Option (List Value))
    (h : show_nmd_purl w i t tbl = .ok (bs, rel, pn)) :
    sections bs ⊆ [tbl, "s3files"] := by
  unfold show_nmd_purl at h
  cases hm : w.mongoFind "neuronbridge" tbl (show_nmd_purl_payload i t tbl) with
  | error e => rw [hm] at h; simp [Bind.bind, Except.bind] at h
  | ok rows =>
    rw [hm] at h
    simp only [Bind.bind, Except.bind] at h
    split at h
    · injection h with h1
      injection h1 with h2 h3
      subst h2
      simp [sections, Block.sectionName]
    · cases hr : show_nmd_purl_rows (nmdHeaders t tbl) rows none [] with
      | error e => rw [hr] at h; simp at h
      | ok out =>
        rw [hr] at h
        simp only [Except.bind] at h
        split at h
        · injection h with h1
          injection h1 with h2 h3
          subst h2
          simp [sections, Block.sectionName]
        · cases hu : getValue (rows.getLastD []) "uploaded" with
          | error e => rw [hu] at h; simp at h
          | ok upv =>
            rw [hu] at h
            simp only [Except.bind] at h
            cases ho : asObj upv with
            | error e => rw [ho] at h; simp at h
            | ok up =>
              rw [ho] at h
              simp only [Except.bind] at h
              cases hc : check_s3 w up initS3 with
              | error e => rw [hc] at h; simp at h
              | ok st =>
                rw [hc] at h
                simp at h
                obtain ⟨h2, h3⟩ := h
                subst h2
                cases hnf : st.notfound <;> cases hot : st.other <;>
                  simp [sections, Block.sectionName, List.filterMap_append, List.subset_def]

theorem sections_show_pli (w : World) (i t : String) (rel : Option Value) (bs : List Block)
    (h : show_pli w i t rel = .ok bs) :
    sections bs ⊆ ["publishedLMImage", "s3files", "janelia-neuronbridge-published-stacks"] := by
  unfold show_pli at h
  cases hm : w.mongoFind "neuronbridge" "publishedLMImage" (show_pli_payload i t) with
  | error e => rw [hm] at h; simp [Bind.bind, Except.bind] at h
  | ok rows =>
    rw [hm] at h
    simp only [Bind.bind, Except.bind] at h
    split at h
    · injection h with h1
      subst h1
      simp [sections, Block.sectionName]
    · cases hr : show_pli_rows w t rel rows initS3 [] with
      | error e => rw [hr] at h; simp at h
      | ok out =>
        rw [hr] at h
        simp only [Except.bind] at h
        split at h <;>
        · injection h with h1
          subst h1
          cases hnf : out.2.1.notfound <;> cases hot : out.2.1.other <;>
            simp [sections, Block.sectionName, List.filterMap_append, List.subset_def]

theorem sections_get_skeletons (w : World) (k : Value) (bs : List Block)
    (h : get_skeletons w k = .ok bs) :
    sections bs ⊆ ["janelia-neuronbridge-published-skeletons"] := by
  unfold get_skeletons at h
  cases hq : w.skeletonsQuery k with
  | error e => rw [hq] at h; simp [Bind.bind, Except.bind] at h
  | ok r? =>
    rw [hq] at h
    simp only [Bind.bind, Except.bind] at h
    cases r? with
    | none =>
      injection h with h1
      subst h1
      simp [sections]
    | some row =>
      dsimp only at h
      split at h
      · simp at h
      · simp at h
        subst h
        simp [sections, Block.sectionName]

theorem sections_get_custom (w : World) (k : String) (bs : List Block)
    (h : get_custom w k = .ok bs) :
    sections bs ⊆ ["janelia-neuronbridge-custom-annotations"] := by
  unfold get_custom at h
  cases hq : w.customQuery (pyLower k) with
  | error e => rw [hq] at h; simp [Bind.bind, Except.bind] at h
  | ok r? =>
    rw [hq] at h
    simp only [Bind.bind, Except.bind] at h
    cases r? with
    | none =>
      injection h with h1
      subst h1
      simp [sections]
    | some data =>
      dsimp only at h
      cases hm : getValue data "matches" with
      | error e => rw [hm] at h; simp at h
      | ok mv =>
        rw [hm] at h
        simp only [Except.bind] at h
        cases ha : asArr mv with
        | error e => rw [ha] at h; simp at h
        | ok items =>
          rw [ha] at h
          simp only [Except.bind] at h
          split at h
          · simp at h
          · simp at h
            subst h
            simp [sections, Block.sectionName]

theorem sections_get_dois (w : World) (pn : List Value) (bs : List Block)
    (h : get_dois w pn = .ok bs) :
    sections bs ⊆ ["janelia-neuronbridge-publishing-doi"] := by
  unfold get_dois at h
  cases ho : get_dois_out w pn with
  | error e => rw [ho] at h; simp [Bind.bind, Except.bind] at h
  | ok out =>
    rw [ho] at h
    simp only [Bind.bind, Except.bind] at h
    split at h
    · injection h with h1
      subst h1
      simp [sections]
    · split at h
      · simp at h
      · simp at h
        subst h
        simp [sections, Block.sectionName]

theorem sections_gpv (w : World) (p : String) (bs : List Block) (n : String)
    (h : get_published_versioned w p = .ok (bs, n)) :
    sections bs ⊆ ["published-versioned"] := by
  unfold get_published_versioned at h
  cases hv : w.ddbVersions with
  | error e => rw [hv] at h; simp [Bind.bind, Except.bind] at h
  | ok versions =>
    rw [hv] at h
    simp only [Bind.bind, Except.bind] at h
    cases hq : w.publishedQuery
        ("janelia-neuronbridge-published-" ++ (generate_version_pulldown versions "").2)
        (pyLastSplit p ':') with
    | error e =>
      rw [hq] at h
      injection h with h1
      injection h1 with h2 h3
      subst h2
      simp [sections]
    | ok r? =>
      rw [hq] at h
      cases r? with
      | none => simp at h
      | some rows =>
        dsimp only at h
        cases hr : gpv_rows rows "" with
        | error e => rw [hr] at h; simp at h
        | ok out =>
          rw [hr] at h
          simp at h
          obtain ⟨h1, h2⟩ := h
          subst h1
          simp [sections, Block.sectionName]


theorem flyLight_not_neuron {s : String} (h : flyLight s = true) : isNeuronType s = false := by
  simp [flyLight] at h
  rcases h with h | h | h <;> subst h <;> decide

theorem sections_show_nmd_other (w : World) (i t tbl : String)
    (bs : List Block) (rel : Option Value) (pn : Option (List Value))
    (hne : tbl ≠ "publishedURL")
    (h : show_nmd_purl w i t tbl = .ok (bs, rel, pn)) :
    sections bs ⊆ [tbl] := by
  unfold show_nmd_purl at h
  cases hm : w.mongoFind "neuronbridge" tbl (show_nmd_purl_payload i t tbl) with
  | error e => rw [hm] at h; simp [Bind.bind, Except.bind] at h
  | ok rows =>
    rw [hm] at h
    simp only [Bind.bind, Except.bind] at h
    split at h
    · injection h with h1
      injection h1 with h2 h3
      subst h2
      simp [sections, Block.sectionName]
    · cases hr : show_nmd_purl_rows (nmdHeaders t tbl) rows none [] with
      | error e => rw [hr] at h; simp at h
      | ok out =>
        rw [hr] at h
        simp only [Except.bind] at h
        split at h
        · injection h with h1
          injection h1 with h2 h3
          subst h2
          simp [sections, Block.sectionName]
        · rename_i hcond
          exfalso
          rcases not_or.mp hcond with ⟨hc1, _⟩
          exact hc1 hne

theorem run_search_try_sections (w : World) (key stype : String) (pv bs : List Block)
    (hst : stype ∈ sixTypes)
    (hpv : sections pv ⊆ declaredSections stype)
    (h : run_search_try w key stype pv = .ok bs) :
    sections bs ⊆ declaredSections stype := by
  unfold run_search_try at h
  cases hf : flyLight stype with
  | true =>
    rw [hf] at h
    rw [flyLight_not_neuron hf] at h
    have hd : declaredSections stype =
        ["sample", "image", "neuronMetadata", "publishedURL", "s3files", "publishedLMImage",
         "janelia-neuronbridge-published-stacks", "janelia-neuronbridge-publishing-doi"] := by
      simp [declaredSections, hf]
    simp only [Bool.false_eq_true, if_false, if_true, Bind.bind, Except.bind] at h
    split at h
    · simp at h
    rename_i pr1 h1
    split at h
    · simp at h
    rename_i pr2 h2
    split at h
    · simp at h
    rename_i pr3 h3
    split at h
    · simp at h
    rename_i pr4 h4
    split at h
    · simp at h
    rename_i b5 h5
    rw [hd]
    split at h
    · rename_i p ps hpn
      split at h
      · simp at h
      rename_i b8 h8
      injection h with h'
      subst h'
      simp only [sections_append]
      refine List.append_subset.mpr ⟨List.append_subset.mpr ⟨List.append_subset.mpr
        ⟨List.append_subset.mpr ⟨List.append_subset.mpr ⟨?_, ?_⟩, ?_⟩, ?_⟩, ?_⟩, ?_⟩
      · exact (sections_show_jacs w key stype "sample" pr1.1 pr1.2 (by rw [← h1])).trans (by decide)
      · exact (sections_show_jacs w _ stype "image" pr2.1 pr2.2 (by rw [← h2])).trans (by decide)
      · exact (sections_show_nmd_purl w _ stype "neuronMetadata" pr3.1 pr3.2.1 pr3.2.2
          (by rw [← h3])).trans (by decide)
      · exact (sections_show_nmd_purl w _ stype "publishedURL" pr4.1 pr4.2.1 pr4.2.2
          (by rw [← h4])).trans (by decide)
      · exact (sections_show_pli w _ stype pr4.2.1 b5 h5).trans (by decide)
      · exact (sections_get_dois w _ b8 h8).trans (by decide)
    · injection h with h'
      subst h'
      simp only [sections_append]
      refine List.append_subset.mpr ⟨List.append_subset.mpr
        ⟨List.append_subset.mpr ⟨List.append_subset.mpr ⟨?_, ?_⟩, ?_⟩, ?_⟩, ?_⟩
      · exact (sections_show_jacs w key stype "sample" pr1.1 pr1.2 (by rw [← h1])).trans (by decide)
      · exact (sections_show_jacs w _ stype "image" pr2.1 pr2.2 (by rw [← h2])).trans (by decide)
      · exact (sections_show_nmd_purl w _ stype "neuronMetadata" pr3.1 pr3.2.1 pr3.2.2
          (by rw [← h3])).trans (by decide)
      · exact (sections_show_nmd_purl w _ stype "publishedURL" pr4.1 pr4.2.1 pr4.2.2
          (by rw [← h4])).trans (by decide)
      · exact (sections_show_pli w _ stype pr4.2.1 b5 h5).trans (by decide)
  | false =>
    simp only [hf, Bool.false_eq_true, if_false, Bind.bind, Except.bind] at h
    split at h
    · simp at h
    rename_i b1 h1
    split at h
    · simp at h
    rename_i pr3 h3
    by_cases hn : isNeuronType stype = true
    · rw [hn] at h
      simp only [if_true] at h
      injection h with h'
      subst h'
      have hd : declaredSections stype = ["emBody", "neuronMetadata", "published-versioned"] := by
        simp [isNeuronType] at hn
        rcases hn with hn | hn <;> subst hn <;> simp [declaredSections, flyLight]
      rw [hd] at hpv ⊢
      simp only [sections_append]
      refine List.append_subset.mpr ⟨List.append_subset.mpr ⟨?_, ?_⟩, ?_⟩
      · exact (sections_show_emb w key stype b1 h1).trans (by decide)
      · exact (sections_show_nmd_other w key stype "neuronMetadata" pr3.1 pr3.2.1 pr3.2.2
          (by decide) (by rw [← h3])).trans (by decide)
      · exact hpv
    · have hn' : isNeuronType stype = false := by
        cases hq : isNeuronType stype
        · rfl
        · exact absurd hq hn
      have hb : stype = "Body ID" := by
        simp [sixTypes] at hst
        rcases hst with rfl | rfl | rfl | rfl | rfl | rfl
        · exact absurd hf (by decide)
        · exact absurd hf (by decide)
        · exact absurd hf (by decide)
        · rfl
        · exact absurd hn' (by decide)
        · exact absurd hn' (by decide)
      rw [hn'] at h
      simp only [Bool.false_eq_true, if_false] at h
      subst hb
      simp only [reduceIte] at h
      have hd : declaredSections "Body ID" =
          ["emBody", "neuronMetadata", "publishedURL", "s3files",
           "janelia-neuronbridge-published-skeletons",
           "janelia-neuronbridge-custom-annotations",
           "janelia-neuronbridge-publishing-doi"] := by
        simp [declaredSections, flyLight]
      rw [hd]
      split at h
      · simp at h
      rename_i pr4 h4
      split at h
      · simp at h
      · simp at h
      · rename_i p tail hpn
        split at h
        · simp at h
        rename_i b6 h6
        split at h
        · simp at h
        rename_i b7 h7
        rw [hpn] at h
        dsimp only at h
        split at h
        · simp at h
        rename_i b8 h8
        injection h with h'
        subst h'
        simp only [sections_append]
        refine List.append_subset.mpr ⟨List.append_subset.mpr ⟨List.append_subset.mpr
          ⟨List.append_subset.mpr ⟨List.append_subset.mpr ⟨?_, ?_⟩, ?_⟩, ?_⟩, ?_⟩, ?_⟩
        · exact (sections_show_emb w key "Body ID" b1 h1).trans (by decide)
        · exact (sections_show_nmd_purl w key "Body ID" "neuronMetadata" pr3.1 pr3.2.1 pr3.2.2
            (by rw [← h3])).trans (by decide)
        · exact (sections_show_nmd_purl w key "Body ID" "publishedURL" pr4.1 pr4.2.1 pr4.2.2
            (by rw [← h4])).trans (by decide)
        · exact (sections_get_skeletons w p b6 h6).trans (by decide)
        · exact (sections_get_custom w key b7 h7).trans (by decide)
        · exact (sections_get_dois w _ b8 h8).trans (by decide)

/-! ### Row-manipulation lemmas -/


theorem rowGet_cons (a : String) (b : Value) (t : Row) (k : String) :
    rowGet ((a, b) :: t) k = if a = k then some b else rowGet t k := by
  simp only [rowGet, List.find?]
  by_cases h : a = k <;> simp [h]

theorem rowHas_cons (a : String) (b : Value) (t : Row) (k : String) :
    rowHas ((a, b) :: t) k = ((a = k) || rowHas t k) := by
  simp [rowHas, List.any_cons]

theorem rowGet_map_set (k k' : String) (v : Value) (h : k' ≠ k) :
    ∀ t : Row, rowGet (t.map (fun p => if p.1 = k then (k, v) else p)) k' = rowGet t k'
  | [] => rfl
  | (a, b) :: t => by
    by_cases hp : a = k
    · simp only [List.map_cons, if_pos hp]
      rw [rowGet_cons, rowGet_cons]
      rw [if_neg (Ne.symm h), if_neg (fun hh : a = k' => (Ne.symm h) (hp ▸ hh))]
      exact rowGet_map_set k k' v h t
    · simp only [List.map_cons, if_neg hp]
      rw [rowGet_cons, rowGet_cons]
      by_cases hk : a = k' <;> simp [hk, rowGet_map_set k k' v h t]

theorem rowHas_map_set (k k' : String) (v : Value) :
    ∀ t : Row, rowHas (t.map (fun p => if p.1 = k then (k, v) else p)) k' = rowHas t k'
  | [] => rfl
  | (a, b) :: t => by
    by_cases hp : a = k
    · simp only [List.map_cons, if_pos hp]
      rw [rowHas_cons, rowHas_cons]
      rw [rowHas_map_set k k' v t, hp]
    · simp only [List.map_cons, if_neg hp]
      rw [rowHas_cons, rowHas_cons]
      rw [rowHas_map_set k k' v t]

theorem rowGet_append_one (k k' : String) (v : Value) (h : k' ≠ k) :
    ∀ r : Row, rowGet (r ++ [(k, v)]) k' = rowGet r k'
  | [] => by
    simp only [List.nil_append]
    rw [rowGet_cons, if_neg (Ne.symm h)]
  | (a, b) :: t => by
    simp only [List.cons_append]
    rw [rowGet_cons, rowGet_cons]
    by_cases hk : a = k' <;> simp [hk, rowGet_append_one k k' v h t]

theorem rowGet_rowSet_ne (r : Row) (k k' : String) (v : Value) (h : k' ≠ k) :
    rowGet (rowSet r k v) k' = rowGet r k' := by
  unfold rowSet
  split
  · exact rowGet_map_set k k' v h r
  · exact rowGet_append_one k k' v h r

theorem rowHas_rowSet_self (r : Row) (k : String) (v : Value) :
    rowHas (rowSet r k v) k = true := by
  unfold rowSet
  split
  · rename_i hc
    rw [rowHas_map_set k k v r]
    exact hc
  · rw [rowHas, List.any_append]
    simp [List.any_cons]

theorem rowHas_rowSet_mono (r : Row) (k k' : String) (v : Value)
    (h : rowHas r k' = true) : rowHas (rowSet r k v) k' = true := by
  unfold rowSet
  split
  · rw [rowHas_map_set k k' v r]; exact h
  · rw [rowHas, List.any_append]
    simp only [rowHas] at h
    simp [h]

theorem rowHas_fillFields_mono (fields : List String) :
    ∀ (r : Row) (k : String), rowHas r k = true → rowHas (fillFields r fields) k = true := by
  induction fields with
  | nil => intro r k h; exact h
  | cons f rest ih =>
    intro r k h
    simp only [fillFields, List.foldl_cons]
    by_cases hf : rowHas r f = true
    · rw [if_pos hf]
      exact ih r k h
    · rw [if_neg hf]
      exact ih _ k (rowHas_rowSet_mono r f k _ h)

theorem rowHas_fillFields_mem (fields : List String) :
    ∀ (r : Row) (k : String), k ∈ fields → rowHas (fillFields r fields) k = true := by
  induction fields with
  | nil => intro r k h; exact absurd h (List.not_mem_nil k)
  | cons f rest ih =>
    intro r k h
    simp only [fillFields, List.foldl_cons]
    rcases List.mem_cons.mp h with rfl | hmem
    · by_cases hf : rowHas r k = true
      · rw [if_pos hf]
        exact rowHas_fillFields_mono rest r k hf
      · rw [if_neg hf]
        exact rowHas_fillFields_mono rest _ k (rowHas_rowSet_self r k _)
    · by_cases hf : rowHas r f = true
      · rw [if_pos hf]; exact ih r k hmem
      · rw [if_neg hf]; exact ih _ k hmem

theorem rowGet_fillFields_ne (fields : List String) :
    ∀ (r : Row) (k : String), k ∉ fields → rowGet (fillFields r fields) k = rowGet r k := by
  induction fields with
  | nil => intro r k _; rfl
  | cons f rest ih =>
    intro r k h
    have hk : k ≠ f := fun hh => h (hh ▸ List.mem_cons_self f rest)
    have hmem : k ∉ rest := fun hh => h (List.mem_cons_of_mem f hh)
    simp only [fillFields, List.foldl_cons]
    by_cases hf : rowHas r f = true
    · rw [if_pos hf]; exact ih r k hmem
    · rw [if_neg hf]
      have h2 := ih (rowSet r f (Value.s "")) k hmem
      simp only [fillFields] at h2
      rw [h2]
      exact rowGet_rowSet_ne r f k _ hk

theorem rowHas_isSome (r : Row) (k : String) :
    rowHas r k = (rowGet r k).isSome := by
  induction r with
  | nil => rfl
  | cons p t ih =>
    obtain ⟨a, b⟩ := p
    rw [rowHas_cons, rowGet_cons]
    by_cases h : a = k <;> simp [h, ih]


theorem getValue_of_has (r : Row) (k : String) (h : rowHas r k = true) :
    ∃ v, getValue r k = .ok v := by
  rw [rowHas_isSome] at h
  unfold getValue
  cases hg : rowGet r k with
  | none => rw [hg] at h; simp at h
  | some v => exact ⟨v, rfl⟩

theorem asStr_not_keyError (v : Value) (g : String) : asStr v ≠ .error (.keyError g) := by
  cases v <;> simp [asStr]

theorem renderCells_no_keyError (r : Row) (hs : List String)
    (hall : ∀ f ∈ hs, rowHas r f = true) (g : String) :
    renderCells r hs ≠ .error (.keyError g) := by
  induction hs with
  | nil => intro h; simp [renderCells] at h
  | cons f rest ih =>
    intro h
    obtain ⟨v, hv⟩ := getValue_of_has r f (hall f (List.mem_cons_self f rest))
    simp only [renderCells, getRenderCell, Bind.bind, Except.bind, hv] at h
    cases ha : asStr v with
    | error e =>
      rw [ha] at h
      injection h with h1
      exact asStr_not_keyError v g (h1 ▸ ha)
    | ok s =>
      rw [ha] at h
      cases hr : renderCells r rest with
      | error e =>
        rw [hr] at h
        injection h with h1
        exact ih (fun f hf => hall f (List.mem_cons_of_mem _ hf)) (h1 ▸ hr)
      | ok more => rw [hr] at h; simp at h

theorem show_jacs_rows_no_keyError (table : String) (headers : List String)
    (hid : table = "sample" → "_id" ∈ headers)
    (hsr : table ≠ "sample" → "sampleRef" ∈ headers) :
    ∀ (rows : List Row) (pname g : String),
      show_jacs_rows table headers rows pname ≠ .error (.keyError g) := by
  intro rows
  induction rows with
  | nil => intro pname g h; simp [show_jacs_rows] at h
  | cons row rest ih =>
    intro pname g h
    simp only [show_jacs_rows, Bind.bind, Except.bind] at h
    split at h
    · -- table = "sample"
      rename_i htbl
      obtain ⟨idv, hidv⟩ := getValue_of_has (fillFields row headers) "_id"
        (rowHas_fillFields_mem headers row "_id" (hid htbl))
      rw [hidv] at h
      dsimp only at h
      cases hc : renderCells (rowSet (fillFields row headers) "_id" (.s (strValue idv))) headers with
      | error e =>
        rw [hc] at h
        injection h with h1
        refine renderCells_no_keyError _ headers ?_ g (h1 ▸ hc)
        intro f hf
        exact rowHas_rowSet_mono _ _ _ _ (rowHas_fillFields_mem headers row f hf)
      | ok cells =>
        rw [hc] at h
        dsimp only at h
        cases hrec : show_jacs_rows table headers rest
            (match rowGet (rowSet (fillFields row headers) "_id" (.s (strValue idv))) "publishingName" with
             | some v => strValue v
             | none => pname) with
        | error e =>
          rw [hrec] at h
          injection h with h1
          exact ih _ g (h1 ▸ hrec)
        | ok pr => rw [hrec] at h; simp at h
    · -- other tables
      rename_i htbl
      obtain ⟨srv, hsrv⟩ := getValue_of_has (fillFields row headers) "sampleRef"
        (rowHas_fillFields_mem headers row "sampleRef" (hsr htbl))
      rw [hsrv] at h
      dsimp only at h
      cases hstr : asStr srv with
      | error e =>
        rw [hstr] at h
        injection h with h1
        exact asStr_not_keyError srv g (h1 ▸ hstr)
      | ok srs =>
        rw [hstr] at h
        dsimp only at h
        cases hc : renderCells
            (rowSet (fillFields row headers) "sampleRef" (.s (pyReplace srs "Sample#" ""))) headers with
        | error e =>
          rw [hc] at h
          injection h with h1
          refine renderCells_no_keyError _ headers ?_ g (h1 ▸ hc)
          intro f hf
          exact rowHas_rowSet_mono _ _ _ _ (rowHas_fillFields_mem headers row f hf)
        | ok cells =>
          rw [hc] at h
          dsimp only at h
          cases hrec : show_jacs_rows table headers rest pname with
          | error e =>
            rw [hrec] at h
            injection h with h1
            exact ih _ g (h1 ▸ hrec)
          | ok pr => rw [hrec] at h; simp at h


/-- The three backfilled fields and `datasetLabels` do not touch
`alpsRelease` / `publishedName`, so the loop sees the original values. -/
theorem nmd_transform_preserves (row : Row) (j : String) (k : String)
    (hk1 : k ≠ "datasetLabels") (hk2 : k ∉ ["sourceRefId", "neuronType", "neuronInstance"]) :
    rowGet (rowSet (fillFields row ["sourceRefId", "neuronType", "neuronInstance"])
      "datasetLabels" (.s j)) k = rowGet row k := by
  rw [rowGet_rowSet_ne _ _ _ _ hk1]
  exact rowGet_fillFields_ne _ row k hk2

/-- What the `show_nmd_purl` row loop computes for the release and the
publishing-name accumulator. -/
theorem nmd_rows_capture (headers : List String) :
    ∀ (rows : List Row) (rel0 : Option Value) (acc : List Value)
      (out : List (List String) × Option Value × List Value),
      show_nmd_purl_rows headers rows rel0 acc = .ok out →
      out.2.1 = (match rel0 with
                 | some v => some v
                 | none => releaseSpec rows) ∧
      out.2.2 = dedupFS acc (rows.filterMap (fun r => rowGet r "publishedName")) := by
  intro rows
  induction rows with
  | nil =>
    intro rel0 acc out h
    simp only [show_nmd_purl_rows] at h
    injection h with h1
    subst h1
    constructor
    · cases rel0 <;> simp [releaseSpec]
    · simp [dedupFS]
  | cons row rest ih =>
    intro rel0 acc out h
    simp only [show_nmd_purl_rows, Bind.bind, Except.bind] at h
    cases hdl : rowGet (fillFields row ["sourceRefId", "neuronType", "neuronInstance"])
        "datasetLabels" with
    | some dv =>
      rw [hdl] at h
      dsimp only at h
      cases hj : pyJoin ", " dv with
      | error e => rw [hj] at h; simp at h
      | ok jv =>
        rw [hj] at h
        dsimp only at h
        generalize hrow : rowSet (fillFields row ["sourceRefId", "neuronType", "neuronInstance"])
            "datasetLabels" (Value.s jv) = row' at h
        have hpn_eq : rowGet row' "publishedName" = rowGet row "publishedName" := by
          rw [← hrow]
          exact nmd_transform_preserves row jv "publishedName" (by decide) (by decide)
        have halps : rowGet row' "alpsRelease" = rowGet row "alpsRelease" := by
          rw [← hrow]
          exact nmd_transform_preserves row jv "alpsRelease" (by decide) (by decide)
        have hhas : rowHas row' "alpsRelease" = rowHas row "alpsRelease" := by
          rw [rowHas_isSome, rowHas_isSome, halps]
        have hgv : getValue row' "publishedName" = getValue row "publishedName" := by
          unfold getValue
          rw [hpn_eq]
        rw [hgv, hhas, halps] at h
        cases hpn : getValue row "publishedName" with
        | error e => rw [hpn] at h; simp at h
        | ok pnv =>
          rw [hpn] at h
          cases hrc : renderCells row' headers with
          | error e => rw [hrc] at h; simp at h
          | ok cells =>
            rw [hrc] at h
            dsimp only at h
            split at h
            · simp at h
            rename_i v hrec
            injection h with h1
            subst h1
            obtain ⟨ih1, ih2⟩ := ih _ _ _ hrec
            constructor
            · show v.2.1 = _
              rw [ih1]
              cases rel0 with
              | some v0 => simp
              | none =>
                simp only [and_true]
                cases hra : rowHas row "alpsRelease" with
                | false =>
                  have hnone : rowGet row "alpsRelease" = none := by
                    rw [rowHas_isSome] at hra
                    exact Option.not_isSome_iff_eq_none.mp (by simp [hra])
                  simp only [Bool.false_eq_true, if_false]
                  unfold releaseSpec
                  rw [List.findSome?_cons]
                  rw [hnone]
                | true =>
                  simp only [if_true]
                  have hsome : (rowGet row "alpsRelease").isSome = true := by
                    rw [← rowHas_isSome]; exact hra
                  obtain ⟨u, hu⟩ := Option.isSome_iff_exists.mp hsome
                  rw [hu]
                  unfold releaseSpec
                  rw [List.findSome?_cons, hu]
                  cases u <;> simp
            · show v.2.2 = _
              rw [ih2]
              have hg : rowGet row "publishedName" = some pnv := by
                unfold getValue at hpn
                cases hgg : rowGet row "publishedName" <;> rw [hgg] at hpn <;>
                  simp at hpn
                rw [hpn]
              rw [List.filterMap_cons, hg]
              simp [dedupFS]
    | none =>
      rw [hdl] at h
      dsimp only at h
      generalize hrow : rowSet (fillFields row ["sourceRefId", "neuronType", "neuronInstance"])
          "datasetLabels" (Value.s "") = row' at h
      have hpn_eq : rowGet row' "publishedName" = rowGet row "publishedName" := by
        rw [← hrow]
        exact nmd_transform_preserves row "" "publishedName" (by decide) (by decide)
      have halps : rowGet row' "alpsRelease" = rowGet row "alpsRelease" := by
        rw [← hrow]
        exact nmd_transform_preserves row "" "alpsRelease" (by decide) (by decide)
      have hhas : rowHas row' "alpsRelease" = rowHas row "alpsRelease" := by
        rw [rowHas_isSome, rowHas_isSome, halps]
      have hgv : getValue row' "publishedName" = getValue row "publishedName" := by
        unfold getValue
        rw [hpn_eq]
      rw [hgv, hhas, halps] at h
      cases hpn : getValue row "publishedName" with
      | error e => rw [hpn] at h; simp at h
      | ok pnv =>
        rw [hpn] at h
        cases hrc : renderCells row' headers with
        | error e => rw [hrc] at h; simp at h
        | ok cells =>
          rw [hrc] at h
          dsimp only at h
          split at h
          · simp at h
          rename_i v hrec
          injection h with h1
          subst h1
          obtain ⟨ih1, ih2⟩ := ih _ _ _ hrec
          constructor
          · show v.2.1 = _
            rw [ih1]
            cases rel0 with
            | some v0 => simp
            | none =>
              simp only [and_true]
              cases hra : rowHas row "alpsRelease" with
              | false =>
                have hnone : rowGet row "alpsRelease" = none := by
                  rw [rowHas_isSome] at hra
                  exact Option.not_isSome_iff_eq_none.mp (by simp [hra])
                simp only [Bool.false_eq_true, if_false]
                unfold releaseSpec
                rw [List.findSome?_cons]
                rw [hnone]
              | true =>
                simp only [if_true]
                have hsome : (rowGet row "alpsRelease").isSome = true := by
                  rw [← rowHas_isSome]; exact hra
                obtain ⟨u, hu⟩ := Option.isSome_iff_exists.mp hsome
                rw [hu]
                unfold releaseSpec
                rw [List.findSome?_cons, hu]
                cases u <;> simp
          · show v.2.2 = _
            rw [ih2]
            have hg : rowGet row "publishedName" = some pnv := by
              unfold getValue at hpn
              cases hgg : rowGet row "publishedName" <;> rw [hgg] at hpn <;>
                simp at hpn
              rw [hpn]
            rw [List.filterMap_cons, hg]
            simp [dedupFS]

/-! ### The claims -/

theorem foldl_pick_last (l : List String) (init : String) :
    l.foldl (fun _ v => v) init = l.getLastD init := by
  induction l generalizing init with
  | nil => rfl
  | cons a t ih =>
    rw [List.foldl_cons, ih a]
    cases t with
    | nil => rfl
    | cons b t' =>
      obtain ⟨x, hx⟩ := Option.isSome_iff_exists.mp
        (show (b :: t').getLast?.isSome = true from rfl)
      simp [List.getLastD_eq_getLast?, List.getLast?_cons_cons, hx]

/-- Claim C1 (amended): the version resolver returns the empty version on an
empty catalog and the sole version on a singleton catalog, but with more than
one distinct version and no explicit request it returns the *last* value
encountered in catalog iteration order (the loop overwrites the version on
every iteration), not the first. -/
theorem c1_version_last_wins :
    (∀ v, generate_version_pulldown [] v = ("", "")) ∧
    (∀ x v, generate_version_pulldown [x] v = ("", x)) ∧
    (∀ versions, 2 ≤ versions.length →
      (generate_version_pulldown versions "").2 = versions.getLastD "") := by
  refine ⟨fun v => rfl, fun x v => rfl, ?_⟩
  intro versions h
  match versions with
  | [] => simp at h
  | [x] => simp at h
  | a :: b :: rest =>
    show (if ("" : String) = "" then (a :: b :: rest).foldl (fun _ ver => ver) "" else "") =
      (a :: b :: rest).getLastD ""
    rw [if_pos rfl, foldl_pick_last]

theorem c1_version_last_wins_witness :
    (generate_version_pulldown ["a", "b", "c"] "").2 = "c" :=
  (c1_version_last_wins.2.2 ["a", "b", "c"] (by decide)).trans (by decide)

theorem c1_counterexample :
    (generate_version_pulldown ["v2", "v1"] "").2 = "v1" ∧ ("v1" : String) ≠ "v2" :=
  ⟨rfl, by decide⟩


/-- Claim C9 (amended): the neuron-body (emBody) lookup matches on the
*neuron-type* field for both NeuronType and NeuronInstance keys, while the
neuron-metadata lookup matches each key type on its respective field. -/
theorem c9_neuron_field_match :
    ∀ v table,
      show_emb_payload v "Neuron type" = .eqS "neuronType" v ∧
      show_emb_payload v "Neuron instance" = .eqS "neuronType" v ∧
      show_nmd_purl_payload v "Neuron type" table = .eqS "neuronType" v ∧
      show_nmd_purl_payload v "Neuron instance" table = .eqS "neuronInstance" v :=
  fun v table => ⟨rfl, rfl, rfl, rfl⟩

theorem c9_counterexample :
    show_emb_payload "inst1" "Neuron instance" = .eqS "neuronType" "inst1" ∧
    Pred.eqS "neuronType" "inst1" ≠ Pred.eqS "neuronInstance" "inst1" :=
  ⟨rfl, by decide⟩

/-- Claim C10: for every SampleId value, the secondary document-store
queries use the exact predicate value `"Sample#" + id` (`sampleRef` in the
jacs image table and publishedURL, `sourceRefId` in neuronMetadata). -/
theorem c10_sample_ref_payload :
    ∀ id, show_jacs_payload id "Sample" "image" = .eqS "sampleRef" ("Sample#" ++ id) ∧
      show_nmd_purl_payload id "Sample" "publishedURL" = .eqS "sampleRef" ("Sample#" ++ id) ∧
      show_nmd_purl_payload id "Sample" "neuronMetadata" = .eqS "sourceRefId" ("Sample#" ++ id) :=
  fun id => ⟨rfl, rfl, rfl⟩

/-- Claim C2 (code bug): for a BodyId that matches a record only in the
neuron-body store, the emBody step itself succeeds with exactly the
neuron-body section, but the resolution does not complete: with no
publishedURL match the publishing-name list is `None`, `get_skeletons(pname[0])`
raises `TypeError`, and the handler returns an error page instead of the
report. -/
theorem c2_bodyid_neuronbody_only :
    show_emb bodyOnlyWorld "123" "Body ID" =
      .ok [.table "emBody" embHeaders [["10", "123", "", "", "", "", ""]]] ∧
    run_search bodyOnlyWorld "123" "Body ID" =
      .errorPage "Body ID" (.typeError "NoneType is not subscriptable") :=
  ⟨rfl, rfl⟩

/-- Claim C8 (amended): validation fails iff (SampleId/BodyId and the raw
key is not a *non-empty* all-digits string) or (the four name-like types
and the raw key is a non-empty all-digits string); an empty raw key is
therefore rejected for SampleId/BodyId even though it contains no
non-digit character. The check is exactly what decides the invalid-key
page. -/
theorem c8_validation_iff :
    (∀ key stype, (stype = "Sample" ∨ stype = "Body ID") →
      (searchInvalid key stype = true ↔
        ¬(key.data ≠ [] ∧ ∀ c ∈ key.data, c.isDigit))) ∧
    (∀ key stype, (stype = "Publishing name" ∨ stype = "Slide code" ∨
        stype = "Neuron type" ∨ stype = "Neuron instance") →
      (searchInvalid key stype = true ↔
        (key.data ≠ [] ∧ ∀ c ∈ key.data, c.isDigit))) ∧
    (∀ (w : World) key stype, searchInvalid key stype = true →
      run_search w key stype = .invalid stype key) ∧
    (∀ (w : World) key stype, searchInvalid key stype = false →
      ∀ a b, run_search w key stype ≠ .invalid a b) := by
  refine ⟨?_, ?_, ?_, ?_⟩
  · intro key stype hs
    rcases hs with h | h <;> subst h <;>
      simp [searchInvalid, pyIsdigit, List.all_eq_true, List.isEmpty_iff, not_and_or] <;>
      tauto
  · intro key stype hs
    rcases hs with h | h | h | h <;> subst h <;>
      simp [searchInvalid, pyIsdigit, List.all_eq_true, List.isEmpty_iff]
  · intro w key stype h
    unfold run_search
    rw [h]
    simp
  · intro w key stype h a b
    unfold run_search
    rw [h]
    simp only [Bool.false_eq_true, if_false]
    cases hstep : (if isNeuronType stype = true then get_published_versioned w (pyLower key)
        else Except.ok ([], "")) with
    | error e => simp
    | ok pr =>
      obtain ⟨pv, neuron⟩ := pr
      dsimp only
      cases htry : run_search_try w
          (if stype = "Slide code" then pyUpper (if neuron ≠ "" then neuron else key)
           else if neuron ≠ "" then neuron else key) stype pv with
      | error e => simp
      | ok blocks => simp


theorem c8_validation_iff_witness :
    searchInvalid "12a" "Sample" = true ∧
    run_search emptyWorld "12a" "Sample" = .invalid "Sample" "12a" := by
  constructor
  · exact (c8_validation_iff.1 "12a" "Sample" (Or.inl rfl)).mpr (by decide)
  · exact c8_validation_iff.2.2.1 emptyWorld "12a" "Sample" (by decide)

theorem c8_counterexample :
    run_search emptyWorld "" "Body ID" = .invalid "Body ID" "" ∧
    (("" : String).data.filter (fun c => !c.isDigit)) = [] :=
  ⟨rfl, rfl⟩



/-- Claim C4 (amended): every store adapter invoked in steps 2-6 propagates
a store failure of its query rather than swallowing it, and any failure
raised inside `run_search`'s `try` block aborts the resolution and surfaces
as the user-facing error page carrying the search context, for every key
and key type; however the step-1 versioned-snapshot lookup *swallows* store
failures of the versioned-table query, and a failure of the step-1
version-catalog query escapes the handler entirely (for both neuron key
types). -/
theorem c4_error_propagation :
    (∀ (w : World) (i t tbl : String) e,
      w.mongoFind "jacs" tbl (show_jacs_payload i t tbl) = .error e →
      show_jacs w i t tbl = .error e) ∧
    (∀ (w : World) (i t : String) e,
      w.mongoFind "jacs" "emBody" (show_emb_payload i t) = .error e →
      show_emb w i t = .error e) ∧
    (∀ (w : World) (i t tbl : String) e,
      w.mongoFind "neuronbridge" tbl (show_nmd_purl_payload i t tbl) = .error e →
      show_nmd_purl w i t tbl = .error e) ∧
    (∀ (w : World) (i t : String) (rel : Option Value) e,
      w.mongoFind "neuronbridge" "publishedLMImage" (show_pli_payload i t) = .error e →
      show_pli w i t rel = .error e) ∧
    (∀ (w : World) (k : String) e,
      w.stacksQuery k = .error e → get_stacks w k = .error e) ∧
    (∀ (w : World) (k : Value) e,
      w.skeletonsQuery k = .error e → get_skeletons w k = .error e) ∧
    (∀ (w : World) (k : String) e,
      w.customQuery (pyLower k) = .error e → get_custom w k = .error e) ∧
    (∀ (w : World) (p : Value) (rest : List Value) e,
      w.doiQuery p = .error e → get_dois w (p :: rest) = .error e) ∧
    (∀ (w : World) (key stype : String) (pv : List Block) (neuron : String) e,
      searchInvalid key stype = false →
      (if isNeuronType stype = true then get_published_versioned w (pyLower key)
       else Except.ok ([], "")) = .ok (pv, neuron) →
      run_search_try w
        (if stype = "Slide code" then pyUpper (if neuron ≠ "" then neuron else key)
         else if neuron ≠ "" then neuron else key) stype pv = .error e →
      run_search w key stype = .errorPage stype e) ∧
    (∀ (w : World) pname vs e, w.ddbVersions = .ok vs →
      w.publishedQuery ("janelia-neuronbridge-published-" ++
          (generate_version_pulldown vs "").2) (pyLastSplit pname ':') = .error e →
      get_published_versioned w pname = .ok ([], "")) ∧
    (∀ (w : World) (key stype : String) e,
      (stype = "Neuron type" ∨ stype = "Neuron instance") →
      searchInvalid key stype = false →
      w.ddbVersions = .error e →
      run_search w key stype = .crash e) := by
  refine ⟨?_, ?_, ?_, ?_, ?_, ?_, ?_, ?_, ?_, ?_, ?_⟩
  · intro w i t tbl e hq
    unfold show_jacs
    rw [hq]
    simp [Bind.bind, Except.bind]
  · intro w i t e hq
    unfold show_emb
    rw [hq]
    simp [Bind.bind, Except.bind]
  · intro w i t tbl e hq
    unfold show_nmd_purl
    rw [hq]
    simp [Bind.bind, Except.bind]
  · intro w i t rel e hq
    unfold show_pli
    rw [hq]
    simp [Bind.bind, Except.bind]
  · intro w k e hq
    unfold get_stacks
    rw [hq]
    simp [Bind.bind, Except.bind]
  · intro w k e hq
    unfold get_skeletons
    rw [hq]
    simp [Bind.bind, Except.bind]
  · intro w k e hq
    unfold get_custom
    rw [hq]
    simp [Bind.bind, Except.bind]
  · intro w p rest e hq
    unfold get_dois get_dois_out
    rw [hq]
    simp [Bind.bind, Except.bind]
  · intro w key stype pv neuron e hsv hstep htry
    unfold run_search
    rw [hsv]
    simp only [Bool.false_eq_true, if_false]
    rw [hstep]
    dsimp only
    rw [htry]
  · intro w pname vs e hv hq
    unfold get_published_versioned
    rw [hv]
    simp only [Bind.bind, Except.bind]
    rw [hq]
  · intro w key stype e hst hsv hv
    rcases hst with rfl | rfl <;>
    · unfold run_search
      rw [hsv]
      simp only [Bool.false_eq_true, if_false, reduceIte]
      unfold get_published_versioned
      rw [hv]
      simp [Bind.bind, Except.bind, isNeuronType]

theorem c4_error_propagation_witness :
    run_search failWorld "abc" "Slide code" = .errorPage "Slide code" (.store "timeout") ∧
    get_published_versioned swallowWorld "abc" = .ok ([], "") ∧
    run_search crashWorld "abc" "Neuron instance" = .crash (.store "catalog down") :=
  ⟨c4_error_propagation.2.2.2.2.2.2.2.2.1 failWorld "abc" "Slide code" [] ""
     (.store "timeout") (by decide) rfl rfl,
   c4_error_propagation.2.2.2.2.2.2.2.2.2.1 swallowWorld "abc" ["v1"]
     (.store "connection reset") rfl rfl,
   c4_error_propagation.2.2.2.2.2.2.2.2.2.2 crashWorld "abc" "Neuron instance"
     (.store "catalog down") (Or.inr rfl) (by decide) rfl⟩

theorem c4_counterexample :
    swallowWorld.publishedQuery "janelia-neuronbridge-published-v1" "abc" =
      .error (.store "connection reset") ∧
    run_search swallowWorld "abc" "Neuron type" =
      .page [.notFound "Body ID" "abc" "emBody",
             .notFound "Neuron type" "abc" "neuronMetadata"] :=
  ⟨rfl, rfl⟩

/-- Claim C5 (amended): only `show_jacs` backfills every declared column
before rendering — its row loop can never raise `KeyError` — while
`show_emb` backfills exactly its five optional fields (a record carrying
only `_id` and `name` renders with empty-string cells); other declared
columns of other adapters are not backfilled (see the counterexample). -/
theorem c5_backfill :
    (∀ (rows : List Row) (pname g : String),
       show_jacs_rows "sample" jacsHeadersSample rows pname ≠ .error (.keyError g)) ∧
    (∀ (rows : List Row) (pname g : String),
       show_jacs_rows "image" jacsHeadersImage rows pname ≠ .error (.keyError g)) ∧
    (show_emb embSparseWorld "B1" "Body ID" =
       .ok [.table "emBody" embHeaders [["7", "B1", "", "", "", "", ""]]]) := by
  refine ⟨?_, ?_, rfl⟩
  · exact show_jacs_rows_no_keyError "sample" jacsHeadersSample
      (fun _ => by decide) (fun hh => absurd rfl hh)
  · exact show_jacs_rows_no_keyError "image" jacsHeadersImage
      (fun hh => by simp at hh) (fun _ => by decide)

theorem c5_backfill_witness :
    show_jacs_rows "sample" jacsHeadersSample [[("slideCode", Value.s "X")]] "" ≠
      Except.error (Err.keyError "line") :=
  c5_backfill.1 [[("slideCode", Value.s "X")]] "" "line"

theorem c5_counterexample :
    show_nmd_purl missingMipWorld "SC1" "Slide code" "neuronMetadata" =
      .error (.keyError "mipId") := rfl

/-- Claim C6 (amended): over the publishedURL rows in order, the captured
release is the value of the first row in which `alpsRelease` is present
with a non-`None` value — even when that value is the empty string — and
the captured publishing names are the distinct `publishedName` values in
first-seen order. -/
theorem c6_release_pname_capture :
    ∀ (w : World) (ival itype : String) (rows : List Row) (bs : List Block)
      (rel : Option Value) (pn : Option (List Value)),
      w.mongoFind "neuronbridge" "publishedURL"
          (show_nmd_purl_payload ival itype "publishedURL") = .ok rows →
      rows ≠ [] →
      show_nmd_purl w ival itype "publishedURL" = .ok (bs, rel, pn) →
      rel = releaseSpec rows ∧
      pn = some (dedupFS [] (rows.filterMap (fun r => rowGet r "publishedName"))) := by
  intro w ival itype rows bs rel pn hm hne hok
  unfold show_nmd_purl at hok
  rw [hm] at hok
  simp only [Bind.bind, Except.bind] at hok
  rw [if_neg (fun hh => hne (List.length_eq_zero.mp hh))] at hok
  cases hr : show_nmd_purl_rows (nmdHeaders itype "publishedURL") rows none [] with
  | error e => rw [hr] at hok; simp at hok
  | ok out =>
    rw [hr] at hok
    dsimp only at hok
    obtain ⟨hcap1, hcap2⟩ :=
      nmd_rows_capture (nmdHeaders itype "publishedURL") rows none [] out hr
    split at hok
    · injection hok with h1
      injection h1 with h2 h3
      injection h3 with h4 h5
      subst h4
      subst h5
      exact ⟨hcap1, by rw [← hcap2]⟩
    · cases hu : getValue (rows.getLastD []) "uploaded" with
      | error e => rw [hu] at hok; simp at hok
      | ok upv =>
        rw [hu] at hok
        dsimp only at hok
        cases ho : asObj upv with
        | error e => rw [ho] at hok; simp at hok
        | ok up =>
          rw [ho] at hok
          dsimp only at hok
          cases hc : check_s3 w up initS3 with
          | error e => rw [hc] at hok; simp at hok
          | ok st =>
            rw [hc] at hok
            dsimp only at hok
            injection hok with h1
            injection h1 with h2 h3
            injection h3 with h4 h5
            subst h4
            subst h5
            exact ⟨hcap1, by rw [← hcap2]⟩

theorem c6_counterexample :
    (show_nmd_purl blankReleaseWorld "SC1" "Slide code" "publishedURL").map
      (fun t => (t.2.1, t.2.2)) =
      .ok (some (Value.s ""), some [Value.s "A", Value.s "B"]) ∧
    Value.s "" ≠ Value.s "R1" := ⟨rfl, by decide⟩


theorem c6_release_pname_capture_witness :
    (some (Value.s "") : Option Value) =
      releaseSpec [purlRow "A" "", purlRow "B" "R1"] ∧
    (some [Value.s "A", Value.s "B"] : Option (List Value)) =
      some (dedupFS [] ([purlRow "A" "", purlRow "B" "R1"].filterMap
        (fun r => rowGet r "publishedName"))) :=
  c6_release_pname_capture blankReleaseWorld "SC1" "Slide code"
    [purlRow "A" "", purlRow "B" "R1"]
    [Block.table "publishedURL"
      ["sampleRef", "mipId", "alignmentSpace", "slideCode", "publishedName",
       "anatomicalArea", "objective", "gender", "alpsRelease"]
      [["Sample#1", "m", "AS", "SC1", "A", "brain", "40x", "f", ""],
       ["Sample#1", "m", "AS", "SC1", "B", "brain", "40x", "f", "R1"]]]
    (some (Value.s "")) (some [Value.s "A", Value.s "B"])
    rfl (List.cons_ne_nil _ _) rfl

/-- Claim C7 (amended): for each of the six key types, every section of a
successfully resolved report belongs to the section set declared by that
key type's pipeline (the set is *not* exactly attained: which declared
sections appear depends on what the lookups return — see the
counterexample). -/
theorem c7_sections_subset_declared :
    ∀ (w : World) (key stype : String) (bs : List Block),
      stype ∈ sixTypes →
      run_search w key stype = .page bs →
      sections bs ⊆ declaredSections stype := by
  intro w key stype bs hst h
  unfold run_search at h
  split at h
  · simp at h
  rename_i hsv
  by_cases hn : isNeuronType stype = true
  · rw [hn] at h
    simp only [reduceIte] at h
    split at h
    · simp at h
    rename_i pvhtml neuron hstep
    split at h
    · simp at h
    rename_i blocks htry
    injection h with h'
    subst h'
    refine run_search_try_sections w _ stype pvhtml blocks hst ?_ htry
    refine (sections_gpv w (pyLower key) pvhtml neuron hstep).trans ?_
    simp [isNeuronType] at hn
    rcases hn with rfl | rfl <;> decide
  · have hn' : isNeuronType stype = false := by
      cases hq : isNeuronType stype
      · rfl
      · exact absurd hq hn
    rw [hn'] at h
    simp only [Bool.false_eq_true, if_false] at h
    split at h
    · simp at h
    rename_i blocks htry
    injection h with h'
    subst h'
    refine run_search_try_sections w _ stype [] blocks hst ?_ htry
    simp [sections]

theorem c7_sections_subset_declared_witness :
    ("Slide code" ∈ sixTypes) ∧
    run_search emptyWorld "ABC" "Slide code" =
      .page [.notFound "Slide code" "ABC" "sample",
             .notFound "Slide code" "ABC" "image",
             .notFound "Slide code" "ABC" "neuronMetadata",
             .notFound "Slide code" "ABC" "publishedURL",
             .notFound "Slide code" "ABC" "publishedLMImage"] ∧
    sections [Block.notFound "Slide code" "ABC" "sample",
              Block.notFound "Slide code" "ABC" "image",
              Block.notFound "Slide code" "ABC" "neuronMetadata",
              Block.notFound "Slide code" "ABC" "publishedURL",
              Block.notFound "Slide code" "ABC" "publishedLMImage"] ⊆
      declaredSections "Slide code" :=
  ⟨by decide, rfl,
   c7_sections_subset_declared emptyWorld "ABC" "Slide code" _ (by decide) rfl⟩

theorem c7_counterexample :
    pageSections (run_search emptyWorld "ABC" "Slide code") = some [] ∧
    pageSections (run_search sampleWorld "ABC" "Slide code") = some ["sample"] ∧
    (some ([] : List String)) ≠ some ["sample"] := ⟨rfl, rfl, by decide⟩

/-- Claim C3 (amended): two records referencing the identical
(fileType, key) pair cause exactly one storage probe, and the result
sequence contains exactly *one* entry for the pair (the duplicate is
skipped entirely and contributes no entry); the single entry reflects the
probe's outcome. -/
theorem c3_dedup_single_probe :
    ∀ (w : World) (ft url bucket key : String),
      splitFirst (pyReplace url "https://s3.amazonaws.com/" "") '/' = some (bucket, key) →
      ((check_s3 w [(ft, .s url)] initS3).bind (check_s3 w [(ft, .s url)])).map
        (fun st => (st.probes, st.outs3)) =
      .ok ([(bucket, pyReplace key "+" " ")],
           [(ft, match w.s3head bucket (pyReplace key "+" " ") with
                 | .found => url_link url
                 | .missing => "<span style='color: red'>" ++ key ++ "</span>"
                 | .other msg =>
                     "<span style='color: red'>" ++ key ++ " " ++ msg ++ "</span>")]) := by
  intro w ft url bucket key hsplit
  cases hp : w.s3head bucket (pyReplace key "+" " ") <;>
    simp [check_s3, asStr, hsplit, hp, s3Lookup, s3Insert, initS3, Bind.bind, Except.bind,
          Except.map]

theorem c3_dedup_single_probe_witness :
    ((check_s3 emptyWorld [("CDM", .s "https://s3.amazonaws.com/bkt/img+1.png")] initS3).bind
      (check_s3 emptyWorld [("CDM", .s "https://s3.amazonaws.com/bkt/img+1.png")])).map
      (fun st => (st.probes, st.outs3)) =
    .ok ([("bkt", "img 1.png")],
         [("CDM", url_link "https://s3.amazonaws.com/bkt/img+1.png")]) :=
  (c3_dedup_single_probe emptyWorld "CDM" "https://s3.amazonaws.com/bkt/img+1.png"
    "bkt" "img+1.png" rfl).trans (by rfl)

theorem c3_counterexample :
    ((check_s3 emptyWorld [("CDM", .s "https://s3.amazonaws.com/bkt/k.png")] initS3).bind
      (check_s3 emptyWorld [("CDM", .s "https://s3.amazonaws.com/bkt/k.png")])).map
      (fun st => (st.probes.length, st.outs3.length)) = .ok (1, 1) ∧ (1 : Nat) ≠ 2 :=
  ⟨rfl, by decide⟩

end Dashboard
